import Mathlib

/-!
Shallow embedding of `src/backup.js` (Postgres backup tool with Backblaze B2
remote storage), together with theorems settling the specification claims.

Conventions of the embedding:
* Environment variables are `Option String` (`none` = unset, JavaScript
  `undefined`); JavaScript truthiness of such a value is `jsTruthy`.
* The `URL` constructor of Node is external library code; its outcome on the
  `DATABASE_URL` string is modelled by the `UrlParse` oracle (either the
  parsed components or a parse failure).
* External process invocations (`pg_dump`, `pg_restore`, `psql`), stream
  completions and S3 calls are modelled by boolean outcome oracles; a JS
  exception / promise rejection is an `Except.error`.
* The local filesystem is a presence map `String → Bool`.
-/

namespace InventoryBackup

/-! ### String helpers

`strEndsWith s p` models the JavaScript `s.endsWith(p)` / an anchored regex
suffix test, computing over the character list so it reduces in the kernel. -/

def strEndsWith (s p : String) : Bool :=
  (s.toList.drop (s.toList.length - p.toList.length)) == p.toList

/-- `ts.replace(/[:.]/g, "-")` from `backup.js` line 92: every `:` and `.`
character of the string is replaced by `-`. -/
def tsReplace (s : String) : String :=
  String.mk (s.toList.map fun c => if c = ':' || c = '.' then '-' else c)

/-! ### Environment resolution (`backup.js` lines 30-59) -/

/-- The components Node's `URL` class exposes for a parsed database URL.
`port` is the empty string when the URL carries no explicit port, matching
the `URL` API. -/
structure DbUrl where
  hostname : String
  port : String
  username : String
  password : String
  pathname : String
deriving DecidableEq, Repr

/-- Outcome of `new URL(process.env.DATABASE_URL)`: either the parsed
components or a thrown `TypeError` for a syntactically invalid URL. -/
inductive UrlParse where
  | invalid : UrlParse
  | valid : DbUrl → UrlParse
deriving DecidableEq, Repr

/-- The slice of `process.env` that `backup.js` reads for database
configuration. `databaseUrl = none` models `DATABASE_URL` unset; `some u`
models it set, with `u` the outcome of parsing it. -/
structure Env where
  databaseUrl : Option UrlParse
  dbHost : Option String
  dbPort : Option String
  dbUsername : Option String
  dbPassword : Option String
  dbName : Option String
deriving DecidableEq, Repr

/-- JavaScript truthiness of an env-var value: `undefined` and the empty
string are falsy, every other string is truthy. -/
def jsTruthy : Option String → Bool
  | none => false
  | some s => s ≠ ""

/-- Lines 30-41: if `DATABASE_URL` is set, parse it and overwrite
`process.env.DB_HOST/DB_PORT/DB_USERNAME/DB_PASSWORD/DB_NAME` with the URL
components (`DB_PORT` gets `dbUrl.port || 5432`; `DB_NAME` gets the pathname
with its leading slash removed).  A parse failure is only logged
(`console.error`) and leaves the environment untouched.  Returns the
post-mutation environment together with whether a parse error was logged. -/
def applyDatabaseUrl (e : Env) : Env × Bool :=
  match e.databaseUrl with
  | none => (e, false)
  | some UrlParse.invalid => (e, true)
  | some (UrlParse.valid u) =>
    ({ e with
        dbHost := some u.hostname
        dbPort := some (if u.port = "" then "5432" else u.port)
        dbUsername := some u.username
        dbPassword := some u.password
        dbName := some (u.pathname.drop 1) }, false)

/-- The Connection Descriptor as destructured on lines 43-54:
`DB_PORT = 5432` is a destructuring default, applied only when the value is
`undefined` (not when it is the empty string). -/
structure DbConfig where
  host : Option String
  port : String
  username : Option String
  password : Option String
  name : Option String
deriving DecidableEq, Repr

/-- Full resolution: URL mutation pass (lines 30-41) followed by the
destructuring with port default (lines 43-54). -/
def resolveConfig (e : Env) : DbConfig :=
  let e2 := (applyDatabaseUrl e).1
  { host := e2.dbHost
    port := e2.dbPort.getD "5432"
    username := e2.dbUsername
    password := e2.dbPassword
    name := e2.dbName }

/-- Whether a URL parse error was logged during resolution (line 39). -/
def resolveLoggedUrlError (e : Env) : Bool :=
  (applyDatabaseUrl e).2

/-- Lines 56-59: `if (!DB_HOST || !DB_NAME || !DB_USERNAME) process.exit(1)`.
`true` means the process exits fatally before any other work. -/
def configExits (e : Env) : Bool :=
  let c := resolveConfig e
  !(jsTruthy c.host) || !(jsTruthy c.name) || !(jsTruthy c.username)

/-! ### Local artifact naming (`backup.js` lines 91-95) -/

/-- Line 93: `dataOnly ? "data-only" : "full"`. -/
def modeSuffix (dataOnly : Bool) : String :=
  if dataOnly then "data-only" else "full"

/-- Line 94: `dataOnly ? "sql.gz" : "dump"`. -/
def modeExt (dataOnly : Bool) : String :=
  if dataOnly then "sql.gz" else "dump"

/-- Line 95: the file name `${DB_NAME}-${suffix}-${ts}.${ext}` where `ts`
is `new Date().toISOString().replace(/[:.]/g, "-")` (line 92), taking the
raw ISO-8601 rendering of the creation instant as input. -/
def backupFileName (dbName : String) (dataOnly : Bool) (isoTimestamp : String) : String :=
  dbName ++ "-" ++ modeSuffix dataOnly ++ "-" ++ tsReplace isoTimestamp ++ "."
    ++ modeExt dataOnly

/-- Modelled from the spec (section 6, "Local artifact naming convention"):
`<database>-<full|data-only>-<ISO8601 with ':' and '.' replaced by '-'>.<dump|sql.gz>`,
written independently of the code for comparison. -/
def specArtifactName (dbName : String) (dataOnly : Bool) (isoTimestamp : String) : String :=
  let mode := if dataOnly then "data-only" else "full"
  let stamp := String.mk (isoTimestamp.toList.map fun c =>
    if c = ':' then '-' else if c = '.' then '-' else c)
  let ext := if dataOnly then "sql.gz" else "dump"
  dbName ++ "-" ++ mode ++ "-" ++ stamp ++ "." ++ ext

/-! ### Local staging store: `getLatestBackup` (`backup.js` lines 78-88) -/

/-- `process.env.BACKUP_DIR || "./backups"` (line 61), at its default. -/
def BACKUP_DIR : String := "./backups"

/-- `path.join(dir, name)`; Node path normalization beyond joining with a
separator is not modelled (no entry name used here contains separators). -/
def pathJoin (dir name : String) : String := dir ++ "/" ++ name

/-- A directory entry as `getLatestBackup` sees it: the file name from
`readdirSync` paired with the `statSync(...).mtime.getTime()` value. -/
structure DirEntry where
  name : String
  mtime : Int
deriving DecidableEq, Repr

/-- The filter regex `/\.(sql|dump)(\.gz)?$/` of line 81: the name ends in
`.sql`, `.dump`, `.sql.gz` or `.dump.gz`. -/
def isBackupFile (f : String) : Bool :=
  strEndsWith f ".sql" || strEndsWith f ".dump" ||
    strEndsWith f ".sql.gz" || strEndsWith f ".dump.gz"

/-- The comparator `(a, b) => b.time - a.time` of line 86 as an ordering
relation: `a` sorts no later than `b` when `a` is at least as new. -/
def newerEq (a b : DirEntry) : Prop := b.mtime ≤ a.mtime

instance : DecidableRel newerEq := fun a b => Int.decLe b.mtime a.mtime

instance : IsTotal DirEntry newerEq := ⟨fun a b => Int.le_total b.mtime a.mtime⟩

instance : IsTrans DirEntry newerEq := ⟨fun _ _ _ hab hbc => le_trans hbc hab⟩

/-- Lines 78-88: filter the directory listing to backup-artifact names, sort
newest-first by modification time, and return the full path of the first
entry, or `null` (`none`) when nothing matches. -/
def getLatestBackup (entries : List DirEntry) : Option String :=
  match List.insertionSort newerEq (entries.filter fun e => isBackupFile e.name) with
  | [] => none
  | f :: _ => some (pathJoin BACKUP_DIR f.name)

/-! ### Restore pipeline (`backup.js` lines 124-163) -/

/-- The local filesystem as a presence map: `fs p = true` iff a file exists
at path `p`. -/
def LocalFS : Type := String → Bool

/-- Create (or overwrite) the file at path `p`. -/
def fsPut (fs : LocalFS) (p : String) : LocalFS := fun q => if q = p then true else fs q

/-- `fs.unlinkSync(p)`. -/
def fsDelete (fs : LocalFS) (p : String) : LocalFS := fun q => if q = p then false else fs q

/-- The distinct exception values the embedding tracks: a rejected
decompression pipeline promise (line 136), a rejected `runCommand` promise
for the full-mode dump (line 71 via line 117). -/
inductive JsError where
  | streamFault : JsError
  | dumpFailed : JsError
deriving DecidableEq, Repr

/-- `filePath.replace(/\.gz$/, "")` (line 129): strip the final three
characters `.gz` (only applied when the path ends in `.gz`). -/
def stripGz (p : String) : String :=
  String.mk (p.toList.take (p.toList.length - 3))

/-- Outcome of one `restore(filePath)` call (lines 124-157): the final local
filesystem, the settled value of the returned promise (`error` = the
function threw / its promise rejected), whether the external restore tool
was invoked, and its exit status when it was. -/
structure RestoreRun where
  fs : LocalFS
  result : Except JsError Unit
  toolAttempted : Bool
  toolSucceeded : Bool

/-- Lines 124-157.  `decompOk` is the outcome oracle for the gunzip pipe
(`finish` vs `error` event), `restoreOk` for the external restore tool.
For a `.gz` path: the write stream creates the decompressed sibling; on a
stream fault the awaited promise rejects, so `restore` throws with the
partial file in place and no tool run; on success the tool is attempted
inside `try/catch` (a tool failure is only logged), and since the
decompressed path differs from the input path, line 156 unlinks it
unconditionally afterwards.  For a non-`.gz` path no file is created or
removed. -/
def restore (decompOk restoreOk : Bool) (fs0 : LocalFS) (filePath : String) : RestoreRun :=
  if strEndsWith filePath ".gz" then
    let decompressed := stripGz filePath
    if decompOk then
      let fs1 := fsPut fs0 decompressed
      let fs2 := if decompressed ≠ filePath then fsDelete fs1 decompressed else fs1
      ⟨fs2, Except.ok (), true, restoreOk⟩
    else
      ⟨fsPut fs0 decompressed, Except.error JsError.streamFault, false, false⟩
  else
    ⟨fs0, Except.ok (), true, restoreOk⟩

/-- Outcome of `restoreAndDev` (lines 159-163): the restore run plus
whether `npm run dev` was launched. -/
structure RestoreDevRun where
  run : RestoreRun
  devStarted : Bool

/-- Lines 159-163: `await restore(filePath)` then start the dev server; a
rejection of the awaited restore promise propagates, skipping the start. -/
def restoreAndDev (decompOk restoreOk : Bool) (fs0 : LocalFS) (filePath : String) :
    RestoreDevRun :=
  let r := restore decompOk restoreOk fs0 filePath
  ⟨r, match r.result with
      | Except.ok _ => true
      | Except.error _ => false⟩

/-! ### Remote upload and retention (`backup.js` lines 166-217) -/

/-- A remote listing entry as `ListObjectsV2` returns it: the object key and
its last-modified instant (milliseconds since epoch, as `new Date(...)`
subtraction uses it). -/
structure RemoteObj where
  key : String
  lastModified : Int
deriving DecidableEq, Repr

/-- Line 198: `const KEEP_LAST = 7`. -/
def KEEP_LAST : Nat := 7

/-- The comparator `(a, b) => new Date(b.LastModified) - new Date(a.LastModified)`
of lines 203-205 as an ordering relation: `a` sorts no later than `b` when
`a` is at least as recently modified. -/
def objNewerEq (a b : RemoteObj) : Prop := b.lastModified ≤ a.lastModified

instance : DecidableRel objNewerEq := fun a b => Int.decLe b.lastModified a.lastModified

instance : IsTotal RemoteObj objNewerEq :=
  ⟨fun a b => Int.le_total b.lastModified a.lastModified⟩

instance : IsTrans RemoteObj objNewerEq := ⟨fun _ _ _ hab hbc => le_trans hbc hab⟩

/-- Lines 202-205: sort the listing newest-first. -/
def sortByLastModifiedDesc (l : List RemoteObj) : List RemoteObj :=
  List.insertionSort objNewerEq l

/-- Line 206: `sorted.slice(KEEP_LAST)` — the objects scheduled for
deletion, guarded by the `Contents.length > KEEP_LAST` test of line 202. -/
def pruneDeletions (contents : List RemoteObj) : List RemoteObj :=
  if KEEP_LAST < contents.length then
    (sortByLastModifiedDesc contents).drop KEEP_LAST
  else []

/-- The objects the retention pass keeps (the first `KEEP_LAST` of the
sorted listing, or everything when the guard of line 202 fails). -/
def pruneKept (contents : List RemoteObj) : List RemoteObj :=
  if KEEP_LAST < contents.length then
    (sortByLastModifiedDesc contents).take KEEP_LAST
  else contents

/-- Lines 207-212: the sequential `for ... await s3.send(DeleteObjectCommand)`
loop.  `deleteOk k` is the outcome oracle for deleting key `k`.  The loop
body runs inside the single `try/catch` of lines 182-216, so a rejected
delete throws out of the loop: the result is the list of keys for which a
delete command was actually sent (in order), paired with whether an
exception aborted the loop. -/
def deleteLoop (deleteOk : String → Bool) : List RemoteObj → List String × Bool
  | [] => ([], false)
  | f :: rest =>
    if deleteOk f.key then
      let r := deleteLoop deleteOk rest
      (f.key :: r.1, r.2)
    else
      ([f.key], true)

/-- The externally visible steps of `uploadToBackblaze`, in execution
order. -/
inductive UpEvent where
  | putObject : Bool → UpEvent
  | unlinkLocal : UpEvent
  | listObjects : UpEvent
  | deleteObject : String → UpEvent
deriving DecidableEq, Repr

/-- Outcome of one `uploadToBackblaze(filePath)` call: the ordered trace of
remote/local steps taken, and whether the local artifact file is still
present afterwards. -/
structure UploadRun where
  trace : List UpEvent
  localPresent : Bool

/-- Lines 166-217.  `b2Bucket = none` models an unset `B2_BUCKET` (line 167
returns immediately).  `uploadOk` is the outcome of the `PutObjectCommand`
await; on rejection the `catch` of lines 214-216 runs and nothing else
happens.  On success line 194 unlinks the local file (throwing into the
same `catch` if it is absent), then lines 197-213 list the bucket
(`listed`) and run the retention deletes. -/
def uploadToBackblaze (b2Bucket : Option String) (uploadOk : Bool)
    (deleteOk : String → Bool) (localPresent0 : Bool) (listed : List RemoteObj) :
    UploadRun :=
  match b2Bucket with
  | none => ⟨[], localPresent0⟩
  | some _ =>
    if uploadOk then
      if localPresent0 then
        ⟨UpEvent.putObject true :: UpEvent.unlinkLocal :: UpEvent.listObjects ::
            (deleteLoop deleteOk (pruneDeletions listed)).1.map UpEvent.deleteObject,
          false⟩
      else
        ⟨[UpEvent.putObject true], false⟩
    else
      ⟨[UpEvent.putObject false], localPresent0⟩

/-! ### CLI dispatch (`backup.js` lines 220-245) and full-mode backup
(lines 116-120) -/

/-- The oracles for one run: outcomes of the external processes, streams
and remote calls, the remote configuration, the bucket listing the service
returns during retention, and the initial local filesystem. -/
structure RunWorld where
  dumpOk : Bool
  decompOk : Bool
  restoreOk : Bool
  uploadOk : Bool
  b2Bucket : Option String
  deleteOk : String → Bool
  listed : List RemoteObj
  fs0 : LocalFS

/-- The command verbs of lines 223-234 (`other` is any unknown or missing
verb, which prints usage). -/
inductive Cmd where
  | backup : Cmd
  | backupData : Cmd
  | restoreVerb : Cmd
  | restoreAndDevVerb : Cmd
  | other : Cmd
deriving DecidableEq, Repr

/-- Full-mode backup, lines 116-120: `await runCommand(dumpCmd -f outFile)`
rejects when `pg_dump` exits non-zero (line 71), and that rejection is not
caught in `backup`; on success `uploadToBackblaze` runs, which catches all
of its own errors (lines 182-216) and therefore always returns normally. -/
def backupFull (w : RunWorld) : Except JsError Unit :=
  if w.dumpOk then
    let _ := uploadToBackblaze w.b2Bucket w.uploadOk w.deleteOk true w.listed
    Except.ok ()
  else
    Except.error JsError.dumpFailed

/-- The async IIFE of lines 221-245 after config validation: `f` is the
already-resolved file argument (`file || getLatestBackup()`).  The value
is the settled state of the IIFE promise: `Except.error` models an
unhandled rejection, which terminates the Node process.  Data-only backup
(lines 105-115) returns before its pipeline completes, so its promise
always fulfills; `restore` propagates decompression-stage rejections
(lines 130-137) while restore-tool failures are caught (lines 149-154). -/
def dispatch (cmd : Cmd) (f : Option String) (w : RunWorld) : Except JsError Unit :=
  match cmd with
  | Cmd.backup => backupFull w
  | Cmd.backupData => Except.ok ()
  | Cmd.restoreVerb =>
    match f with
    | none => Except.ok ()
    | some fp => (restore w.decompOk w.restoreOk w.fs0 fp).result
  | Cmd.restoreAndDevVerb =>
    match f with
    | none => Except.ok ()
    | some fp => (restore w.decompOk w.restoreOk w.fs0 fp).result
  | Cmd.other => Except.ok ()

end InventoryBackup

namespace InventoryBackup

/-! ### Theorems for claims C4, C5, C7 -/

/-- Counterexample input for C4: both discrete fields and a valid URL set,
with different hosts. -/
def c4Env : Env :=
  { databaseUrl := some (UrlParse.valid
      { hostname := "url-host", port := "6543", username := "url-user",
        password := "url-pass", pathname := "/url-db" })
    dbHost := some "discrete-host"
    dbPort := some "1111"
    dbUsername := some "discrete-user"
    dbPassword := some "discrete-pass"
    dbName := some "discrete-db" }

/-- C4 counterexample: with both the discrete fields and a valid
`DATABASE_URL` set, resolution takes every field from the URL, not from the
discrete variables — the discrete host `discrete-host` is overwritten by the
URL host `url-host`, refuting the claimed discrete-over-URL precedence. -/
theorem c4_discrete_fields_do_not_take_precedence :
    resolveConfig c4Env =
      { host := some "url-host", port := "6543", username := some "url-user",
        password := some "url-pass", name := some "url-db" } ∧
    resolveConfig c4Env ≠
      { host := some "discrete-host", port := "1111",
        username := some "discrete-user", password := some "discrete-pass",
        name := some "discrete-db" } := by
  constructor
  · rfl
  · decide

/-- C4 (amended): when a syntactically valid connection URL is set, every
field of the resolved Connection Descriptor comes from the parsed URL
(overwriting any discrete variables), with the port defaulting to 5432 when
the URL has no port; the discrete variables are used only when no URL is set
or the URL fails to parse, and then the port defaults to 5432 when the
discrete port is unset. -/
theorem c4_url_overwrites_discrete_fields (e : Env) (u : DbUrl)
    (h : e.databaseUrl = some (UrlParse.valid u)) :
    resolveConfig e =
      { host := some u.hostname
        port := if u.port = "" then "5432" else u.port
        username := some u.username
        password := some u.password
        name := some (u.pathname.drop 1) } ∧
    (∀ e2 : Env, (e2.databaseUrl = none ∨ e2.databaseUrl = some UrlParse.invalid) →
      resolveConfig e2 =
        { host := e2.dbHost, port := e2.dbPort.getD "5432",
          username := e2.dbUsername, password := e2.dbPassword,
          name := e2.dbName }) := by
  constructor
  · simp [resolveConfig, applyDatabaseUrl, h]
  · intro e2 h2
    rcases h2 with h2 | h2 <;> simp [resolveConfig, applyDatabaseUrl, h2]

/-- Witness for `c4_url_overwrites_discrete_fields` at the concrete
environment `c4Env`. -/
theorem c4_url_overwrites_discrete_fields_witness :
    resolveConfig c4Env =
      { host := some "url-host", port := if "6543" = "" then "5432" else "6543",
        username := some "url-user", password := some "url-pass",
        name := some ("/url-db".drop 1) } ∧
    (∀ e2 : Env, (e2.databaseUrl = none ∨ e2.databaseUrl = some UrlParse.invalid) →
      resolveConfig e2 =
        { host := e2.dbHost, port := e2.dbPort.getD "5432",
          username := e2.dbUsername, password := e2.dbPassword,
          name := e2.dbName }) :=
  c4_url_overwrites_discrete_fields c4Env
    { hostname := "url-host", port := "6543", username := "url-user",
      password := "url-pass", pathname := "/url-db" } rfl

/-- Counterexample input for C5: a syntactically invalid `DATABASE_URL`
together with complete discrete fields. -/
def c5Env : Env :=
  { databaseUrl := some UrlParse.invalid
    dbHost := some "h"
    dbPort := none
    dbUsername := some "u"
    dbPassword := some "p"
    dbName := some "d" }

/-- C5 counterexample: a syntactically invalid `DATABASE_URL` is not fatal —
with the discrete host, name and username present, the parse failure is only
logged and the process does not exit, refuting the claim that an invalid URL
is itself fatal. -/
theorem c5_invalid_url_is_not_fatal :
    resolveLoggedUrlError c5Env = true ∧ configExits c5Env = false := by
  decide

/-- C5 (amended): resolution is fatal (process exits before spawning any
dump or restore process) iff, after resolution, the host, database name or
username is unset or empty; a syntactically invalid URL is merely logged,
resolution falling back to the discrete variables. -/
theorem c5_fatal_iff_missing_required_field (e : Env) :
    configExits e = true ↔
      (¬ jsTruthy (resolveConfig e).host ∨ ¬ jsTruthy (resolveConfig e).name ∨
        ¬ jsTruthy (resolveConfig e).username) := by
  simp [configExits, or_assoc]

/-- The character substitution of the code (`c = ':' || c = '.'` in one
boolean test) agrees with the nested form the spec describes. -/
theorem tsReplace_eq_nested (s : String) :
    tsReplace s = String.mk (s.toList.map fun c =>
      if c = ':' then '-' else if c = '.' then '-' else c) := by
  unfold tsReplace
  congr 1
  apply List.map_congr_left
  intro c _
  by_cases h1 : c = ':' <;> by_cases h2 : c = '.' <;> simp [h1, h2]

/-- C7: the backup operation names its local artifact exactly
`<db>-<full|data-only>-<iso with ':' '.' replaced by '-'>.<dump|sql.gz>`:
the name built by the code coincides with the convention as the spec states
it, for every database name, mode and creation instant; in particular for
database `shop`, full mode, at a fixed timestamp. -/
theorem c7_artifact_naming (dbName : String) (dataOnly : Bool) (iso : String) :
    backupFileName dbName dataOnly iso = specArtifactName dbName dataOnly iso ∧
    backupFileName "shop" false "2024-01-02T03:04:05.678Z"
      = "shop-full-2024-01-02T03-04-05-678Z.dump" := by
  constructor
  · cases dataOnly <;>
      simp only [backupFileName, specArtifactName, modeSuffix, modeExt,
        tsReplace_eq_nested, if_true, if_false, Bool.false_eq_true]
  · decide

/-! ### Theorem for claim C8 -/

/-- C8: `getLatestBackup` returns `none` (not an error) when no directory
entry matches the artifact convention; otherwise it returns the path of a
matching entry whose modification time is greatest among all matching
entries; and on exactly two matching files, the older `a` and the newer
`b`, it returns the path of `b`. -/
theorem c8_getLatestBackup (entries : List DirEntry) :
    ((∀ e, e ∈ entries → isBackupFile e.name = false) →
      getLatestBackup entries = none) ∧
    (∀ e, e ∈ entries → isBackupFile e.name = true →
      ∃ m, m ∈ entries ∧ isBackupFile m.name = true ∧
        getLatestBackup entries = some (pathJoin BACKUP_DIR m.name) ∧
        ∀ e2, e2 ∈ entries → isBackupFile e2.name = true → e2.mtime ≤ m.mtime) ∧
    (∀ a b, isBackupFile a.name = true → isBackupFile b.name = true →
      a.mtime < b.mtime →
      getLatestBackup [a, b] = some (pathJoin BACKUP_DIR b.name)) := by
  have general : ∀ l : List DirEntry, ∀ e, e ∈ l → isBackupFile e.name = true →
      ∃ m, m ∈ l ∧ isBackupFile m.name = true ∧
        getLatestBackup l = some (pathJoin BACKUP_DIR m.name) ∧
        ∀ e2, e2 ∈ l → isBackupFile e2.name = true → e2.mtime ≤ m.mtime := by
    intro l e he hbf
    have hperm := List.perm_insertionSort newerEq (l.filter fun x => isBackupFile x.name)
    have hsorted := List.sorted_insertionSort newerEq
      (l.filter fun x => isBackupFile x.name)
    rcases hs : List.insertionSort newerEq (l.filter fun x => isBackupFile x.name) with
      _ | ⟨m, rest⟩
    · exfalso
      have : e ∈ List.insertionSort newerEq (l.filter fun x => isBackupFile x.name) :=
        hperm.mem_iff.mpr (List.mem_filter.mpr ⟨he, hbf⟩)
      rw [hs] at this
      exact (List.not_mem_nil e) this
    · rw [hs] at hperm hsorted
      have hmFilter : m ∈ l.filter fun x => isBackupFile x.name :=
        hperm.mem_iff.mp (List.mem_cons_self m rest)
      refine ⟨m, (List.mem_filter.mp hmFilter).1, (List.mem_filter.mp hmFilter).2, ?_, ?_⟩
      · unfold getLatestBackup
        rw [hs]
      · intro e2 he2 hbf2
        have : e2 ∈ m :: rest := hperm.mem_iff.mpr (List.mem_filter.mpr ⟨he2, hbf2⟩)
        rcases List.mem_cons.mp this with h | h
        · exact le_of_eq (congrArg DirEntry.mtime h)
        · exact List.rel_of_sorted_cons hsorted e2 h
  refine ⟨?_, general entries, ?_⟩
  · intro hnone
    unfold getLatestBackup
    have : entries.filter (fun e => isBackupFile e.name) = [] := by
      rw [List.filter_eq_nil_iff]
      intro e he
      simp [hnone e he]
    rw [this]
    rfl
  · intro a b ha hb hab
    obtain ⟨m, hm, _, heq, hmax⟩ := general [a, b] b (by simp) hb
    have hma : m = a ∨ m = b := by simpa using hm
    rcases hma with rfl | rfl
    · exact absurd (hmax b (by simp) hb) (not_le.mpr hab)
    · exact heq

/-- Witness for `c8_getLatestBackup`: two matching files, `a.dump` older
and `b.dump` newer, and the newer one is returned. -/
theorem c8_getLatestBackup_witness :
    getLatestBackup [⟨"a.dump", 1⟩, ⟨"b.dump", 2⟩]
      = some (pathJoin BACKUP_DIR "b.dump") :=
  (c8_getLatestBackup [⟨"a.dump", 1⟩, ⟨"b.dump", 2⟩]).2.2
    ⟨"a.dump", 1⟩ ⟨"b.dump", 2⟩ (by decide) (by decide) (by decide)

/-! ### Theorems for claims C9, C10 -/

/-- A path ending in `.gz` has at least three characters. -/
theorem gz_length_le (p : String) (h : strEndsWith p ".gz" = true) :
    3 ≤ p.toList.length := by
  unfold strEndsWith at h
  have hlen := congrArg List.length (eq_of_beq h)
  rw [List.length_drop] at hlen
  have h3 : (".gz".toList).length = 3 := rfl
  rw [h3] at hlen
  omega

/-- Stripping the `.gz` suffix changes the path: the stripped path is three
characters shorter. -/
theorem stripGz_ne (p : String) (h : strEndsWith p ".gz" = true) :
    stripGz p ≠ p := by
  intro heq
  have h3 := gz_length_le p h
  have hlen : (stripGz p).toList.length = p.toList.length := by rw [heq]
  have hstrip : (stripGz p).toList.length = p.toList.length - 3 := by
    show (p.toList.take (p.toList.length - 3)).length = p.toList.length - 3
    rw [List.length_take]
    omega
  omega

/-- The concrete initial filesystem used by the C9/C10 witnesses: exactly
the artifact `x.sql.gz` is present. -/
def fs0c : LocalFS := fun q => q == "x.sql.gz"

/-- C9: with the decompression stage completing, `restore` mutates the
local filesystem only at the decompressed intermediate path — every other
path is untouched, and the intermediate is absent afterwards, whether or
not the restore tool succeeded (the tool having been attempted); for a
path not ending in `.gz`, the filesystem is unchanged. -/
theorem c9_restore_frame (restoreOk : Bool) (fs0 : LocalFS) (filePath : String) :
    (strEndsWith filePath ".gz" = true →
      (restore true restoreOk fs0 filePath).fs (stripGz filePath) = false ∧
      (∀ p, p ≠ stripGz filePath →
        (restore true restoreOk fs0 filePath).fs p = fs0 p) ∧
      (restore true restoreOk fs0 filePath).toolAttempted = true) ∧
    (strEndsWith filePath ".gz" = false →
      (restore true restoreOk fs0 filePath).fs = fs0 ∧
      (restore true restoreOk fs0 filePath).toolAttempted = true) := by
  constructor
  · intro hgz
    have hne := stripGz_ne filePath hgz
    refine ⟨?_, ?_, ?_⟩
    · simp [restore, hgz, hne, fsDelete]
    · intro p hp
      simp [restore, hgz, hne, fsDelete, fsPut, hp]
    · simp [restore, hgz]
  · intro hgz
    refine ⟨?_, ?_⟩ <;> simp [restore, hgz]

/-- Witness for `c9_restore_frame`: restoring `x.sql.gz` with a failing
restore tool still removes the intermediate `x.sql`, leaves an unrelated
path untouched, and ran the tool; restoring `y.dump` leaves the
filesystem unchanged. -/
theorem c9_restore_frame_witness :
    ((restore true false fs0c "x.sql.gz").fs (stripGz "x.sql.gz") = false ∧
      (∀ p, p ≠ stripGz "x.sql.gz" →
        (restore true false fs0c "x.sql.gz").fs p = fs0c p) ∧
      (restore true false fs0c "x.sql.gz").toolAttempted = true) ∧
    ((restore true false fs0c "y.dump").fs = fs0c ∧
      (restore true false fs0c "y.dump").toolAttempted = true) :=
  ⟨(c9_restore_frame false fs0c "x.sql.gz").1 (by decide),
   (c9_restore_frame false fs0c "y.dump").2 (by decide)⟩

/-- C10: if the decompression stage fails on a `.gz` artifact, `restore`
propagates the error to its caller (its promise rejects), the restore tool
is never attempted, the partially written intermediate file is left in
place, and `restore-and-dev` consequently does not start the dev
process. -/
theorem c10_decompression_failure_propagates (restoreOk : Bool) (fs0 : LocalFS)
    (filePath : String) (hgz : strEndsWith filePath ".gz" = true) :
    (restore false restoreOk fs0 filePath).result
        = Except.error JsError.streamFault ∧
    (restore false restoreOk fs0 filePath).toolAttempted = false ∧
    (restore false restoreOk fs0 filePath).fs (stripGz filePath) = true ∧
    (restoreAndDev false restoreOk fs0 filePath).devStarted = false := by
  refine ⟨?_, ?_, ?_, ?_⟩ <;>
    simp [restore, restoreAndDev, hgz, fsPut]

/-- Witness for `c10_decompression_failure_propagates` at the artifact
`x.sql.gz`. -/
theorem c10_decompression_failure_propagates_witness :
    (restore false true fs0c "x.sql.gz").result
        = Except.error JsError.streamFault ∧
    (restore false true fs0c "x.sql.gz").toolAttempted = false ∧
    (restore false true fs0c "x.sql.gz").fs (stripGz "x.sql.gz") = true ∧
    (restoreAndDev false true fs0c "x.sql.gz").devStarted = false :=
  c10_decompression_failure_propagates true fs0c "x.sql.gz" (by decide)

/-! ### Theorem for claim C1 -/

/-- C1: with a remote bucket configured and the local artifact present, the
local file is deleted iff the upload call returns successfully; on an
upload failure the artifact is still present afterwards; and in the ordered
step trace, every local deletion is strictly preceded by a successful
upload completion. -/
theorem c1_upload_then_delete (bucketName : String) (uploadOk : Bool)
    (deleteOk : String → Bool) (listed : List RemoteObj) :
    ((uploadToBackblaze (some bucketName) uploadOk deleteOk true listed).localPresent
        = false ↔ uploadOk = true) ∧
    (uploadOk = false →
      (uploadToBackblaze (some bucketName) uploadOk deleteOk true listed).localPresent
        = true) ∧
    (∀ i : Nat, (uploadToBackblaze (some bucketName) uploadOk deleteOk true
          listed).trace[i]? = some UpEvent.unlinkLocal →
      ∃ j : Nat, j < i ∧ (uploadToBackblaze (some bucketName) uploadOk deleteOk true
          listed).trace[j]? = some (UpEvent.putObject true)) := by
  cases uploadOk with
  | false =>
    refine ⟨by simp [uploadToBackblaze], fun _ => by simp [uploadToBackblaze], ?_⟩
    intro i hi
    exfalso
    rcases i with _ | i <;> simp [uploadToBackblaze] at hi
  | true =>
    refine ⟨by simp [uploadToBackblaze], fun h => absurd h (by decide), ?_⟩
    intro i hi
    match i with
    | 0 => simp [uploadToBackblaze] at hi
    | 1 => exact ⟨0, Nat.zero_lt_one, by simp [uploadToBackblaze]⟩
    | Nat.succ (Nat.succ n) =>
      exfalso
      simp only [uploadToBackblaze, if_pos, List.getElem?_cons_succ] at hi
      match n with
      | 0 => simp at hi
      | Nat.succ m =>
        simp only [List.getElem?_cons_succ, List.getElem?_map] at hi
        rcases hdel : ((deleteLoop deleteOk (pruneDeletions listed)).1)[m]? with _ | k <;>
          rw [hdel] at hi <;> simp at hi

/-! ### Theorem for claim C2 -/

/-- A listing of at most `KEEP_LAST` objects schedules no deletion. -/
theorem pruneDeletions_eq_nil_of_le (l : List RemoteObj) (h : l.length ≤ KEEP_LAST) :
    pruneDeletions l = [] := by
  unfold pruneDeletions
  rw [if_neg (Nat.not_lt.mpr h)]

/-- C2: with pairwise-distinct last-modified stamps, a retention pass over
`n` listed objects deletes nothing when `n ≤ 7`; when `n > 7` it deletes
exactly `n - 7` objects, keeps exactly `7`, kept and deleted together being
a permutation of the listing with every deleted object strictly older than
every kept one; and the pass applied again to the kept objects deletes
nothing. -/
theorem c2_prune_keeps_seven_newest (contents : List RemoteObj)
    (hdistinct : contents.Pairwise fun a b => a.lastModified ≠ b.lastModified) :
    (contents.length ≤ KEEP_LAST → pruneDeletions contents = []) ∧
    (KEEP_LAST < contents.length →
      (pruneDeletions contents).length = contents.length - KEEP_LAST ∧
      (pruneKept contents).length = KEEP_LAST ∧
      (pruneKept contents ++ pruneDeletions contents).Perm contents ∧
      (∀ d ∈ pruneDeletions contents, ∀ k ∈ pruneKept contents,
        d.lastModified < k.lastModified)) ∧
    pruneDeletions (pruneKept contents) = [] := by
  refine ⟨pruneDeletions_eq_nil_of_le contents, ?_, ?_⟩
  · intro h
    have hperm : (sortByLastModifiedDesc contents).Perm contents :=
      List.perm_insertionSort objNewerEq contents
    have hlens : (sortByLastModifiedDesc contents).length = contents.length :=
      hperm.length_eq
    have hsorted : List.Sorted objNewerEq (sortByLastModifiedDesc contents) :=
      List.sorted_insertionSort objNewerEq contents
    have hkept : pruneKept contents = (sortByLastModifiedDesc contents).take KEEP_LAST := by
      unfold pruneKept
      rw [if_pos h]
    have hdel : pruneDeletions contents
        = (sortByLastModifiedDesc contents).drop KEEP_LAST := by
      unfold pruneDeletions
      rw [if_pos h]
    have hpairne : (sortByLastModifiedDesc contents).Pairwise
        (fun a b => a.lastModified ≠ b.lastModified) :=
      hdistinct.perm hperm.symm (fun hxy => hxy.symm)
    have hsplit := List.take_append_drop KEEP_LAST (sortByLastModifiedDesc contents)
    rw [← hsplit] at hpairne hsorted
    have hcross := (List.pairwise_append.mp hpairne).2.2
    have hcrossle := (List.pairwise_append.mp hsorted).2.2
    refine ⟨?_, ?_, ?_, ?_⟩
    · rw [hdel, List.length_drop, hlens]
    · rw [hkept, List.length_take, hlens]
      omega
    · rw [hkept, hdel, hsplit]
      exact hperm
    · intro d hd k hk
      rw [hdel] at hd
      rw [hkept] at hk
      exact lt_of_le_of_ne (hcrossle k hk d hd) (Ne.symm (hcross k hk d hd))
  · apply pruneDeletions_eq_nil_of_le
    by_cases h7 : KEEP_LAST < contents.length
    · unfold pruneKept
      rw [if_pos h7, List.length_take]
      omega
    · unfold pruneKept
      rw [if_neg h7]
      omega

/-- The concrete ten-object bucket of the C2 witness, distinct stamps. -/
def c2Bucket : List RemoteObj :=
  [⟨"k0", 0⟩, ⟨"k1", 1⟩, ⟨"k2", 2⟩, ⟨"k3", 3⟩, ⟨"k4", 4⟩,
   ⟨"k5", 5⟩, ⟨"k6", 6⟩, ⟨"k7", 7⟩, ⟨"k8", 8⟩, ⟨"k9", 9⟩]

/-- Witness for `c2_prune_keeps_seven_newest` on a ten-object bucket. -/
theorem c2_prune_keeps_seven_newest_witness :
    (c2Bucket.length ≤ KEEP_LAST → pruneDeletions c2Bucket = []) ∧
    (KEEP_LAST < c2Bucket.length →
      (pruneDeletions c2Bucket).length = c2Bucket.length - KEEP_LAST ∧
      (pruneKept c2Bucket).length = KEEP_LAST ∧
      (pruneKept c2Bucket ++ pruneDeletions c2Bucket).Perm c2Bucket ∧
      (∀ d ∈ pruneDeletions c2Bucket, ∀ k ∈ pruneKept c2Bucket,
        d.lastModified < k.lastModified)) ∧
    pruneDeletions (pruneKept c2Bucket) = [] :=
  c2_prune_keeps_seven_newest c2Bucket (by decide)

/-! ### Theorems for claim C6 -/

/-- The concrete nine-object bucket of the C6 counterexample. -/
def c6Bucket : List RemoteObj :=
  [⟨"o0", 0⟩, ⟨"o1", 1⟩, ⟨"o2", 2⟩, ⟨"o3", 3⟩, ⟨"o4", 4⟩,
   ⟨"o5", 5⟩, ⟨"o6", 6⟩, ⟨"o7", 7⟩, ⟨"o8", 8⟩]

/-- C6 counterexample: in a retention pass over nine objects, two deletions
are scheduled (`o1` then `o0`); when the deletion of `o1` fails, the
deletion of `o0` is never attempted — refuting the claimed independence of
deletions. -/
theorem c6_counterexample :
    pruneDeletions c6Bucket = [⟨"o1", 1⟩, ⟨"o0", 0⟩] ∧
    (deleteLoop (fun k => k != "o1") (pruneDeletions c6Bucket)).1 = ["o1"] ∧
    "o0" ∉ (deleteLoop (fun k => k != "o1") (pruneDeletions c6Bucket)).1 := by
  decide

/-- C6 (amended): the deletions of a retention pass are sequential and not
independent — the delete commands actually sent are exactly those for the
objects up to and including the first one whose deletion fails, the
exception from that failure aborting all remaining deletions (it is caught
only at the `uploadToBackblaze` boundary). -/
theorem c6_first_failure_aborts_rest (deleteOk : String → Bool)
    (olds : List RemoteObj) :
    (deleteLoop deleteOk olds).1
      = (olds.takeWhile fun f => deleteOk f.key).map RemoteObj.key
        ++ ((olds.dropWhile fun f => deleteOk f.key).head?.map RemoteObj.key).toList ∧
    (deleteLoop deleteOk olds).2
      = !(olds.dropWhile fun f => deleteOk f.key).isEmpty := by
  induction olds with
  | nil => simp [deleteLoop]
  | cons f rest ih =>
    by_cases hf : deleteOk f.key
    · simp [deleteLoop, hf, List.takeWhile_cons, List.dropWhile_cons, ih.1, ih.2]
    · simp [deleteLoop, hf, List.takeWhile_cons, List.dropWhile_cons]

/-! ### Theorems for claim C3 -/

/-- The settled value of a `restore` call: its promise rejects exactly when
the artifact needs decompression and the decompression stage fails. -/
theorem restore_result_characterization (d r : Bool) (fs0 : LocalFS) (p : String) :
    (restore d r fs0 p).result = Except.ok () ↔
      ¬(strEndsWith p ".gz" = true ∧ d = false) := by
  by_cases hgz : strEndsWith p ".gz" = true <;> cases d <;> simp [restore, hgz]

/-- The concrete world of the C3 counterexample: the full-mode dump
process fails, everything else succeeds. -/
def c3World : RunWorld :=
  { dumpOk := false, decompOk := true, restoreOk := true, uploadOk := true,
    b2Bucket := some "bkt", deleteOk := fun _ => true, listed := [], fs0 := fs0c }

/-- C3 counterexample: in a run that passed configuration validation, a
failing full-mode dump process makes the `backup` verb reject uncaught —
the dispatcher promise settles to an error, i.e. an unhandled rejection
terminates the process even though no configuration error occurred. -/
theorem c3_counterexample :
    dispatch Cmd.backup none c3World = Except.error JsError.dumpFailed ∧
    ¬(∀ (cmd : Cmd) (f : Option String) (w : RunWorld),
        dispatch cmd f w = Except.ok ()) := by
  refine ⟨rfl, ?_⟩
  intro h
  have h2 := h Cmd.backup none c3World
  rw [show dispatch Cmd.backup none c3World = Except.error JsError.dumpFailed from rfl]
    at h2
  exact Except.noConfusion h2

/-- C3 (amended): after configuration validation, restore-tool failures and
every remote upload/retention failure are contained and logged, but two
error classes do escape the dispatcher uncaught and terminate the process:
a full-mode dump process failure, and a decompression-stage failure while
restoring a `.gz` artifact.  The run promise fulfills iff neither occurs. -/
theorem c3_only_dump_and_decompression_errors_escape (cmd : Cmd)
    (f : Option String) (w : RunWorld) :
    dispatch cmd f w = Except.ok () ↔
      ¬(cmd = Cmd.backup ∧ w.dumpOk = false) ∧
      ¬((cmd = Cmd.restoreVerb ∨ cmd = Cmd.restoreAndDevVerb) ∧
        ∃ fp, f = some fp ∧ strEndsWith fp ".gz" = true ∧ w.decompOk = false) := by
  cases cmd <;> rcases f with _ | fp <;>
    simp [dispatch, backupFull, restore_result_characterization]

end InventoryBackup
